import Mathlib

/-!
Shallow embedding of the mp4Clipping repository (mp4Clippingv1.1.py and
mp4Clippingv1.2.py).

Coordinates are integers (Qt works with `int`).  The Python float
arithmetic `orig_w / disp_w` etc. is modelled exactly by rational
numbers.  `pyRound` models Python's built-in `round` (round half to
even) and `pyTrunc` models Python's `int()` (truncation toward zero);
`Int.fdiv` models Python's floor division `//`.  `QRect` follows Qt 5's
integer rectangle semantics: a rectangle stores its left/top and
right/bottom pixel columns/rows inclusively, so `width = x2 - x1 + 1`,
`normalized` swaps corners only when `x2 < x1 - 1` (resp. `y`), and
`intersected` follows `QRect::operator&`.
-/

namespace MP4Clip

/-- The floor of a rational, computed on the numerator and denominator so
that the kernel can evaluate it. -/
def ratFloor (q : ℚ) : ℤ := q.num / q.den

theorem ratFloor_eq (q : ℚ) : ratFloor q = ⌊q⌋ := Rat.floor_def.symm

/-- Python `round` on an exact rational: round half to even. -/
def pyRound (q : ℚ) : ℤ :=
  if q - (ratFloor q : ℚ) < 1/2 then ratFloor q
  else if 1/2 < q - (ratFloor q : ℚ) then ratFloor q + 1
  else if ratFloor q % 2 = 0 then ratFloor q else ratFloor q + 1

/-- Python `int()` on an exact rational: truncation toward zero. -/
def pyTrunc (q : ℚ) : ℤ :=
  if 0 ≤ q then ratFloor q else -ratFloor (-q)

/-- Qt 5 `QRect`: left, top, right and bottom pixel coordinates, all
inclusive. -/
structure QRect where
  x1 : ℤ
  y1 : ℤ
  x2 : ℤ
  y2 : ℤ
deriving DecidableEq

namespace QRect

/-- `QRect(QPoint p, QPoint q)`: `p` is the top-left, `q` the bottom-right
corner. -/
def fromPoints (p q : ℤ × ℤ) : QRect := ⟨p.1, p.2, q.1, q.2⟩

/-- `QRect(x, y, w, h)`. -/
def mkXYWH (x y w h : ℤ) : QRect := ⟨x, y, x + w - 1, y + h - 1⟩

/-- `QRect::width()`. -/
def width (r : QRect) : ℤ := r.x2 - r.x1 + 1

/-- `QRect::height()`. -/
def height (r : QRect) : ℤ := r.y2 - r.y1 + 1

/-- Qt 5 `QRect::normalized`: each axis is swapped only when its extent is
negative, i.e. when `x2 < x1 - 1` (a width-0 rectangle is left alone). -/
def normalized (r : QRect) : QRect :=
  ⟨if r.x2 < r.x1 - 1 then r.x2 else r.x1,
   if r.y2 < r.y1 - 1 then r.y2 else r.y1,
   if r.x2 < r.x1 - 1 then r.x1 else r.x2,
   if r.y2 < r.y1 - 1 then r.y1 else r.y2⟩

/-- `QRect::isNull()`: both width and height are zero. -/
def isNull (r : QRect) : Prop := r.x2 = r.x1 - 1 ∧ r.y2 = r.y1 - 1

instance : DecidablePred isNull := fun r => by unfold isNull; infer_instance

/-- Qt 5 `QRect::operator&` (`intersected`); the empty result is the
default-constructed `QRect()`, whose width and height are zero. -/
def intersected (s r : QRect) : QRect :=
  if s.isNull ∨ r.isNull then ⟨0, 0, -1, -1⟩
  else
    let l1 := if s.x2 - s.x1 + 1 < 0 then s.x2 else s.x1
    let r1 := if s.x2 - s.x1 + 1 < 0 then s.x1 else s.x2
    let l2 := if r.x2 - r.x1 + 1 < 0 then r.x2 else r.x1
    let r2 := if r.x2 - r.x1 + 1 < 0 then r.x1 else r.x2
    if l1 > r2 ∨ l2 > r1 then ⟨0, 0, -1, -1⟩
    else
      let t1 := if s.y2 - s.y1 + 1 < 0 then s.y2 else s.y1
      let b1 := if s.y2 - s.y1 + 1 < 0 then s.y1 else s.y2
      let t2 := if r.y2 - r.y1 + 1 < 0 then r.y2 else r.y1
      let b2 := if r.y2 - r.y1 + 1 < 0 then r.y1 else r.y2
      if t1 > b2 ∨ t2 > b1 then ⟨0, 0, -1, -1⟩
      else ⟨max l1 l2, max t1 t2, min r1 r2, min b1 b2⟩

end QRect

/-- `VideoWidget.get_selection_normalized` (v1.1): normalize the drag
rectangle, intersect it with the label's contents rectangle
`(0, 0, label_w, label_h)`, and reject a zero-width or zero-height
result. -/
def get_selection_normalized (label_w label_h : ℤ)
    (start_pos end_pos : Option (ℤ × ℤ)) : Option (ℤ × ℤ × ℤ × ℤ) :=
  match start_pos, end_pos with
  | some p, some q =>
    let r := ((QRect.fromPoints p q).normalized).intersected
      (QRect.mkXYWH 0 0 label_w label_h)
    if r.width = 0 ∨ r.height = 0 then none
    else some (r.x1, r.y1, r.width, r.height)
  | _, _ => none

/-- v1.1 `MainWindow.crop_and_save`, lines 179-184: scale the in-pixmap
selection back to source pixels with `int(round(...))`. -/
def srcRect_v11 (orig_w orig_h pix_w pix_h sel_x sel_y sel_w sel_h : ℤ) :
    ℤ × ℤ × ℤ × ℤ :=
  let scale_x : ℚ := (orig_w : ℚ) / (pix_w : ℚ)
  let scale_y : ℚ := (orig_h : ℚ) / (pix_h : ℚ)
  (pyRound ((sel_x : ℚ) * scale_x), pyRound ((sel_y : ℚ) * scale_y),
   pyRound (((sel_x : ℚ) + (sel_w : ℚ)) * scale_x),
   pyRound (((sel_y : ℚ) + (sel_h : ℚ)) * scale_y))

/-- v1.1 `MainWindow.crop_and_save`: from the widget geometry, displayed
pixmap and drag points to the `(x0, y0, x2, y2)` rectangle passed to
`clip.crop`; `none` on every early `return` (no selection, no pixmap,
selection outside the video). -/
def crop_and_save_v11 (orig_w orig_h label_w label_h : ℤ)
    (pixmap : Option (ℤ × ℤ)) (start_pos end_pos : Option (ℤ × ℤ)) :
    Option (ℤ × ℤ × ℤ × ℤ) :=
  match get_selection_normalized label_w label_h start_pos end_pos with
  | none => none
  | some (disp_x, disp_y, disp_w, disp_h) =>
    match pixmap with
    | none => none
    | some (pw, ph) =>
      let offset_x := max 0 ((label_w - pw).fdiv 2)
      let offset_y := max 0 ((label_h - ph).fdiv 2)
      let sel_x_in_pix := disp_x - offset_x
      let sel_y_in_pix := disp_y - offset_y
      let sel_w_in_pix := min disp_w (pw - sel_x_in_pix)
      let sel_h_in_pix := min disp_h (ph - sel_y_in_pix)
      if sel_w_in_pix ≤ 0 ∨ sel_h_in_pix ≤ 0 then none
      else some (srcRect_v11 orig_w orig_h pw ph
        sel_x_in_pix sel_y_in_pix sel_w_in_pix sel_h_in_pix)

/-- The record returned by `VideoWidget.get_selection_info` (v1.2). -/
structure SelInfo where
  selection_rect : QRect
  video_intersect : QRect
  rel_x : ℤ
  rel_y : ℤ
  rel_w : ℤ
  rel_h : ℤ
  disp_w : ℤ
  disp_h : ℤ
deriving DecidableEq

/-- `VideoWidget.get_selection_info` (v1.2): `none` when any of start
position, end position, video display rectangle or displayed pixmap is
missing, when the normalized selection is narrower or shorter than 5
pixels, or when it does not intersect the video display rectangle. -/
def get_selection_info (start_pos end_pos : Option (ℤ × ℤ))
    (video_display_rect : Option QRect)
    (displayed_pixmap : Option (ℤ × ℤ)) : Option SelInfo :=
  match start_pos, end_pos, video_display_rect, displayed_pixmap with
  | some p, some q, some vdr, some (dw, dh) =>
    let sel := (QRect.fromPoints p q).normalized
    if sel.width < 5 ∨ sel.height < 5 then none
    else
      let vi := sel.intersected vdr
      if vi.width ≤ 0 ∨ vi.height ≤ 0 then none
      else some ⟨sel, vi, vi.x1 - vdr.x1, vi.y1 - vdr.y1,
        vi.width, vi.height, dw, dh⟩
  | _, _, _, _ => none

/-- v1.2 `MainWindow.crop_and_save`, lines 373-379: scale the relative
selection back to source pixels with `int(...)`, clamped into the frame. -/
def srcRect_v12 (orig_w orig_h disp_w disp_h rel_x rel_y rel_w rel_h : ℤ) :
    ℤ × ℤ × ℤ × ℤ :=
  let scale_x : ℚ := (orig_w : ℚ) / (disp_w : ℚ)
  let scale_y : ℚ := (orig_h : ℚ) / (disp_h : ℚ)
  (max 0 (pyTrunc ((rel_x : ℚ) * scale_x)),
   max 0 (pyTrunc ((rel_y : ℚ) * scale_y)),
   min orig_w (pyTrunc (((rel_x : ℚ) + (rel_w : ℚ)) * scale_x)),
   min orig_h (pyTrunc (((rel_y : ℚ) + (rel_h : ℚ)) * scale_y)))

/-- `VideoWidget.update_display` (v1.2): the rectangle in which the scaled
pixmap is shown, centred in the widget. -/
def update_display_rect (widget_w widget_h pix_w pix_h : ℤ) : QRect :=
  QRect.mkXYWH (max 0 ((widget_w - pix_w).fdiv 2))
    (max 0 ((widget_h - pix_h).fdiv 2)) pix_w pix_h

/-- v1.2 `MainWindow.crop_and_save`: from widget state to the
`(x, y, width, height)` crop passed to `process_crop`; `none` on every
early `return` (no capture, no valid selection, empty crop). -/
def crop_and_save_v12 (orig_w orig_h : ℤ) (hasCap : Bool)
    (start_pos end_pos : Option (ℤ × ℤ)) (video_display_rect : Option QRect)
    (displayed_pixmap : Option (ℤ × ℤ)) : Option (ℤ × ℤ × ℤ × ℤ) :=
  if hasCap = false then none
  else
    match get_selection_info start_pos end_pos video_display_rect
        displayed_pixmap with
    | none => none
    | some info =>
      let r := srcRect_v12 orig_w orig_h info.disp_w info.disp_h
        info.rel_x info.rel_y info.rel_w info.rel_h
      let x0 := r.1
      let y0 := r.2.1
      let x2 := r.2.2.1
      let y2 := r.2.2.2
      let crop_w := x2 - x0
      let crop_h := y2 - y0
      if crop_w ≤ 0 ∨ crop_h ≤ 0 then none
      else some (x0, y0, crop_w, crop_h)

/-! ### Frames and the v1.2 crop loop -/

/-- A decoded video frame: the numpy array of shape `(H, W, 3)`, modelled
as rows of pixels; the type `α` stands for the colour triple. -/
abbrev Frame (α : Type) := List (List α)

/-- numpy slicing `frame[y:y+height, x:x+width]`: keep rows
`y..y+height-1` and, in each kept row, columns `x..x+width-1`, clamped to
the array bounds as a Python slice is. -/
def cropFrame (x y width height : ℕ) (frame : Frame α) : Frame α :=
  ((frame.drop y).take height).map fun row => (row.drop x).take width

/-- The frame loop of v1.2 `MainWindow.process_crop`: read frames until
`ret` is false, crop each one and write it to the output in order. -/
def process_crop (x y width height : ℕ) : List (Frame α) → List (Frame α)
  | [] => []
  | f :: rest => cropFrame x y width height f ::
      process_crop x y width height rest

/-- The pixel of a frame list at frame `i`, row `r`, column `c`. -/
def pixel (v : List (Frame α)) (i r c : ℕ) : Option α :=
  (v[i]?).bind fun f => (f[r]?).bind fun row => row[c]?

/-! ### Loading (v1.1, moviepy) -/

/-- A loaded video as moviepy's `VideoFileClip` exposes it. -/
structure Video (α : Type) where
  frames : List (Frame α)
  w : ℤ
  h : ℤ
  fps : ℚ
  duration : ℚ

/-- `clip.get_frame(0)`: the frame at time 0, i.e. the frame of index 0. -/
def Video.get_frame0 (v : Video α) : Option (Frame α) := v.frames[0]?

/-- The fields of v1.1's `MainWindow` touched by `load_video`, together
with the frame currently rendered by `show_frame`. -/
structure StateV11 (α : Type) where
  video_path : Option String
  clip : Option (Video α)
  current_frame : Option (Frame α)
  orig_w : ℤ
  orig_h : ℤ
  displayed : Option (Frame α)
  crop_btn_enabled : Bool

/-- v1.1 `MainWindow.load_video`.  `openRes` is the result of
`VideoFileClip(path)`: `none` when the constructor raises, in which case
the handler shows a message box and returns before any field was
assigned. -/
def load_video_v11 (openRes : Option (Video α)) (path : String)
    (s : StateV11 α) : StateV11 α :=
  match openRes with
  | none => s
  | some clip =>
    { video_path := some path
      clip := some clip
      current_frame := clip.get_frame0
      orig_w := clip.w
      orig_h := clip.h
      displayed := clip.get_frame0
      crop_btn_enabled := true }

/-! ### Loading (v1.2, OpenCV) -/

/-- An opened `cv2.VideoCapture`: the decoded frames, the read position,
and the stream properties it reports. -/
structure Cap (α : Type) where
  frames : List (Frame α)
  pos : ℕ
  fps : ℚ
  w : ℤ
  h : ℤ
  count : ℤ

/-- `cap.read()`: the frame at the current position, advancing it on
success; `ret` is false (`none`) at end of stream. -/
def Cap.read (c : Cap α) : Option (Frame α) × Cap α :=
  match c.frames[c.pos]? with
  | some f => (some f, { c with pos := c.pos + 1 })
  | none => (none, c)

/-- The fields of v1.2's `MainWindow` touched by `load_video`, together
with the frame currently rendered by `show_frame`. -/
structure StateV12 (α : Type) where
  video_path : Option String
  cap : Option (Cap α)
  frame_count : ℤ
  fps : ℚ
  orig_w : ℤ
  orig_h : ℤ
  current_frame : Option (Frame α)
  displayed : Option (Frame α)
  buttons_enabled : Bool

/-- v1.2 `MainWindow.load_video`.  `openRes` is what `cv2.VideoCapture(path)`
yields: `none` when `isOpened()` is false (the code then raises and the
except-handler releases the capture and resets it to `None`), otherwise
the opened stream.  On success the properties are read, the first
`cap.read()` is made and its frame shown when `ret` is true. -/
def load_video_v12 (openRes : Option (Cap α)) (path : String)
    (s : StateV12 α) : StateV12 α :=
  match openRes with
  | none => { s with cap := none }
  | some cap0 =>
    let r := cap0.read
    { video_path := some path
      cap := some r.2
      frame_count := cap0.count
      fps := cap0.fps
      orig_w := cap0.w
      orig_h := cap0.h
      current_frame := match r.1 with
        | some f => some f
        | none => s.current_frame
      displayed := match r.1 with
        | some f => some f
        | none => s.displayed
      buttons_enabled := true }

/-! ### Handle lifecycle (v1.2) -/

/-- Handle events of v1.2: opening and releasing `cv2.VideoCapture` and
`cv2.VideoWriter` objects, identified by serial numbers. -/
inductive HEv
  | openCap (i : ℕ)
  | relCap (i : ℕ)
  | openWriter (i : ℕ)
  | relWriter (i : ℕ)
deriving DecidableEq

/-- The handle-relevant state of v1.2's `MainWindow`: the held capture
`self.cap` (by serial number) and the next fresh serial. -/
structure HState where
  cap : Option ℕ
  next : ℕ
deriving DecidableEq

/-- v1.2 `load_video`, handle view: release the held capture if any, then
construct the new one; when `isOpened()` is false the code raises and the
except-handler releases the fresh capture and holds nothing. -/
def loadEvents (ok : Bool) (s : HState) : HState × List HEv :=
  let rel := match s.cap with
    | some h => [HEv.relCap h]
    | none => []
  if ok then
    (⟨some s.next, s.next + 1⟩, rel ++ [HEv.openCap s.next])
  else
    (⟨none, s.next + 1⟩, rel ++ [HEv.openCap s.next, HEv.relCap s.next])

/-- v1.2 `crop_and_save`/`process_crop`, handle view: without a held
capture the method returns at once; `proceed` models the selection and
save-dialog checks.  When cropping runs, a temporary input capture and an
output writer are opened and, after the copy loop, both are released. -/
def cropEvents (proceed : Bool) (s : HState) : HState × List HEv :=
  match s.cap with
  | none => (s, [])
  | some _ =>
    if proceed then
      (⟨s.cap, s.next + 2⟩,
        [HEv.openCap s.next, HEv.openWriter (s.next + 1),
         HEv.relCap s.next, HEv.relWriter (s.next + 1)])
    else (s, [])

/-- v1.2 `MainWindow.closeEvent`: release the held capture if any. -/
def closeEvents (s : HState) : HState × List HEv :=
  match s.cap with
  | some h => (⟨none, s.next⟩, [HEv.relCap h])
  | none => (s, [])

/-- The user events that drive the v1.2 handle state. -/
inductive UEv
  | load (ok : Bool)
  | crop (proceed : Bool)
deriving DecidableEq

/-- One user event. -/
def hstep : HState → UEv → HState × List HEv
  | s, .load ok => loadEvents ok s
  | s, .crop p => cropEvents p s

/-- A sequence of user events from a given state. -/
def runEvents : HState → List UEv → HState × List HEv
  | s, [] => (s, [])
  | s, e :: rest =>
    let r1 := hstep s e
    let r2 := runEvents r1.1 rest
    (r2.1, r1.2 ++ r2.2)

/-- A full application run: initial state (`self.cap = None`, no handles),
the user events, then the window close. -/
def appTrace (evs : List UEv) : List HEv :=
  let r := runEvents ⟨none, 0⟩ evs
  r.2 ++ (closeEvents r.1).2

/-- Running capture balance: +1 on a capture open, −1 on a capture
release. -/
def capStep : ℤ → HEv → ℤ
  | b, .openCap _ => b + 1
  | b, .relCap _ => b - 1
  | b, _ => b

/-- Running writer balance. -/
def writerStep : ℤ → HEv → ℤ
  | b, .openWriter _ => b + 1
  | b, .relWriter _ => b - 1
  | b, _ => b

/-- The largest running balance reached over any prefix of the trace. -/
def scanMaxAux (f : ℤ → HEv → ℤ) : ℤ → ℤ → List HEv → ℤ
  | _, m, [] => m
  | b, m, e :: rest =>
    scanMaxAux f (f b e) (max m (f b e)) rest

/-- The largest number of simultaneously open captures during a trace. -/
def maxCapOpen (t : List HEv) : ℤ := scanMaxAux capStep 0 0 t

/-- The largest number of simultaneously open writers during a trace. -/
def maxWriterOpen (t : List HEv) : ℤ := scanMaxAux writerStep 0 0 t

/-- The number of occurrences of a handle event in a trace. -/
def cnt (e : HEv) : List HEv → ℕ
  | [] => 0
  | a :: t => (if a = e then 1 else 0) + cnt e t

/-- The invariant tying the v1.2 handle state to the trace emitted so far:
the running balances match the held capture, the balance never exceeded
two captures (resp. one writer), every serial at or above `next` is
untouched, no handle is opened twice, every writer and every capture
other than the held one has been released exactly as often as opened, and
the held capture is a known, opened, unreleased serial. -/
def HInv (s : HState) (t : List HEv) : Prop :=
  t.foldl capStep 0 = (match s.cap with | some _ => 1 | none => 0) ∧
  t.foldl writerStep 0 = 0 ∧
  scanMaxAux capStep 0 0 t ≤ 2 ∧
  scanMaxAux writerStep 0 0 t ≤ 1 ∧
  (∀ i, s.next ≤ i → cnt (HEv.openCap i) t = 0 ∧ cnt (HEv.relCap i) t = 0 ∧
    cnt (HEv.openWriter i) t = 0 ∧ cnt (HEv.relWriter i) t = 0) ∧
  (∀ i, cnt (HEv.openCap i) t ≤ 1) ∧
  (∀ i, cnt (HEv.openWriter i) t ≤ 1) ∧
  (∀ i, cnt (HEv.relWriter i) t = cnt (HEv.openWriter i) t) ∧
  (∀ i, cnt (HEv.relCap i) t =
    cnt (HEv.openCap i) t - (if s.cap = some i then 1 else 0)) ∧
  (∀ i, s.cap = some i → i < s.next ∧ cnt (HEv.openCap i) t = 1)

/-! ### Spec-side predicates used to state claims -/

/-- Two (normalized, inclusive) rectangles share no pixel column or row. -/
def rectDisjoint (s r : QRect) : Prop :=
  s.x2 < r.x1 ∨ r.x2 < s.x1 ∨ s.y2 < r.y1 ∨ r.y2 < s.y1

instance (s r : QRect) : Decidable (rectDisjoint s r) := by
  unfold rectDisjoint; infer_instance

/-- `a` agrees with `b` within one source pixel per edge, `b` never to the
right of `a`. -/
def withinOne (a b : ℤ × ℤ × ℤ × ℤ) : Prop :=
  (b.1 ≤ a.1 ∧ a.1 ≤ b.1 + 1) ∧ (b.2.1 ≤ a.2.1 ∧ a.2.1 ≤ b.2.1 + 1) ∧
  (b.2.2.1 ≤ a.2.2.1 ∧ a.2.2.1 ≤ b.2.2.1 + 1) ∧
  (b.2.2.2 ≤ a.2.2.2 ∧ a.2.2.2 ≤ b.2.2.2 + 1)

instance (a b : ℤ × ℤ × ℤ × ℤ) : Decidable (withinOne a b) := by
  unfold withinOne; infer_instance

/-- The computed source rectangle `res` equals the selection scaled by
`orig_w / disp_w` horizontally and `orig_h / disp_h` vertically, each edge
up to integer rounding (strictly less than one source pixel off). -/
def approxScaled (ow oh dw dh rx ry rw rh : ℤ) (res : ℤ × ℤ × ℤ × ℤ) :
    Prop :=
  |(res.1 : ℚ) - (rx : ℚ) * ((ow : ℚ) / (dw : ℚ))| < 1 ∧
  |(res.2.1 : ℚ) - (ry : ℚ) * ((oh : ℚ) / (dh : ℚ))| < 1 ∧
  |(res.2.2.1 : ℚ) - ((rx : ℚ) + (rw : ℚ)) * ((ow : ℚ) / (dw : ℚ))| < 1 ∧
  |(res.2.2.2 : ℚ) - ((ry : ℚ) + (rh : ℚ)) * ((oh : ℚ) / (dh : ℚ))| < 1

/-! ### Arithmetic helper lemmas -/

theorem fdiv_two_eq_ediv (a : ℤ) (h : 0 ≤ a) : a.fdiv 2 = a / 2 := by
  obtain ⟨n, rfl⟩ := Int.eq_ofNat_of_zero_le h
  cases n <;> rfl

theorem le_pyRound (q : ℚ) : ⌊q⌋ ≤ pyRound q := by
  unfold pyRound
  rw [ratFloor_eq]
  split_ifs <;> omega

theorem pyRound_le (q : ℚ) : pyRound q ≤ ⌊q⌋ + 1 := by
  unfold pyRound
  rw [ratFloor_eq]
  split_ifs <;> omega

theorem abs_pyRound_sub_le (q : ℚ) : |(pyRound q : ℚ) - q| ≤ 1/2 := by
  have h0 : (⌊q⌋ : ℚ) ≤ q := Int.floor_le q
  have h1 : q < ⌊q⌋ + 1 := Int.lt_floor_add_one q
  unfold pyRound
  rw [ratFloor_eq]
  rw [abs_le]
  split_ifs with hf hg hh <;> constructor <;> push_cast <;> linarith

theorem pyTrunc_of_nonneg {q : ℚ} (h : 0 ≤ q) : pyTrunc q = ⌊q⌋ := by
  unfold pyTrunc
  rw [if_pos h, ratFloor_eq]

theorem pyRound_intCast (n : ℤ) : pyRound ((n : ℤ) : ℚ) = n := by
  unfold pyRound
  rw [ratFloor_eq, Int.floor_intCast, sub_self]
  norm_num

theorem pyTrunc_intCast (n : ℤ) : pyTrunc ((n : ℤ) : ℚ) = n := by
  unfold pyTrunc
  split_ifs with h
  · rw [ratFloor_eq, Int.floor_intCast]
  · rw [ratFloor_eq, show (-((n : ℤ) : ℚ)) = (((-n : ℤ)) : ℚ) by push_cast; ring,
      Int.floor_intCast]
    omega

theorem abs_floor_sub_lt (q : ℚ) : |((⌊q⌋ : ℤ) : ℚ) - q| < 1 := by
  have h0 : (⌊q⌋ : ℚ) ≤ q := Int.floor_le q
  have h1 : q < ⌊q⌋ + 1 := Int.lt_floor_add_one q
  rw [abs_lt]
  constructor <;> linarith

theorem trunc_lo_eq {t : ℚ} (ht : 0 ≤ t) : max 0 (pyTrunc t) = ⌊t⌋ := by
  rw [pyTrunc_of_nonneg ht, max_eq_right (Int.floor_nonneg.mpr ht)]

theorem trunc_hi_eq {w : ℤ} {t : ℚ} (ht : 0 ≤ t) (htw : t ≤ (w : ℚ)) :
    min w (pyTrunc t) = ⌊t⌋ := by
  rw [pyTrunc_of_nonneg ht]
  refine min_eq_right ?_
  have := Int.floor_le_floor htw
  rwa [Int.floor_intCast] at this

/-- The four scaled edge positions are non-negative and the right/bottom
ones stay below the original extent, given a selection inside the
displayed area. -/
theorem scaled_bounds {ow dw rx rw : ℤ} (hdw : 0 < dw) (hrx : 0 ≤ rx)
    (hrw : 0 ≤ rw) (hxw : rx + rw ≤ dw) (how : 0 ≤ ow) :
    0 ≤ (rx : ℚ) * ((ow : ℚ) / (dw : ℚ)) ∧
    0 ≤ ((rx : ℚ) + (rw : ℚ)) * ((ow : ℚ) / (dw : ℚ)) ∧
    ((rx : ℚ) + (rw : ℚ)) * ((ow : ℚ) / (dw : ℚ)) ≤ (ow : ℚ) := by
  have hdw' : (0 : ℚ) < (dw : ℚ) := by exact_mod_cast hdw
  have hsx : (0 : ℚ) ≤ (ow : ℚ) / (dw : ℚ) :=
    div_nonneg (by exact_mod_cast how) (le_of_lt hdw')
  have hrx' : (0 : ℚ) ≤ (rx : ℚ) := by exact_mod_cast hrx
  have hrw' : (0 : ℚ) ≤ (rw : ℚ) := by exact_mod_cast hrw
  have hsum : (rx : ℚ) + (rw : ℚ) ≤ (dw : ℚ) := by exact_mod_cast hxw
  refine ⟨mul_nonneg hrx' hsx, mul_nonneg (by linarith) hsx, ?_⟩
  calc ((rx : ℚ) + (rw : ℚ)) * ((ow : ℚ) / (dw : ℚ))
      ≤ (dw : ℚ) * ((ow : ℚ) / (dw : ℚ)) :=
        mul_le_mul_of_nonneg_right hsum hsx
    _ = (ow : ℚ) := by
        rw [mul_comm, div_mul_cancel₀ _ (ne_of_gt hdw')]

/-! ### C1: the two display-to-source mappings -/

/-- C1: the claim that versions 1.1 and 1.2 compute the same source crop
rectangle on identical configurations is false: with a 3×3 source shown
as a 2×2 pixmap and the selection `(1, 1, 1, 1)` relative to the
displayed video, v1.1 rounds `1·(3/2)` to 2 while v1.2 truncates it
to 1. -/
theorem c1_counterexample :
    srcRect_v11 3 3 2 2 1 1 1 1 ≠ srcRect_v12 3 3 2 2 1 1 1 1 := by
  with_unfolding_all decide

/-- C1 (amended): on identical input configurations the two mappings agree
up to one source pixel per edge: each coordinate computed by v1.1
(`round`) equals the v1.2 coordinate (truncation, clamped) or exceeds it
by exactly 1. -/
theorem c1_amended (ow oh dw dh rx ry rw rh : ℤ)
    (hdw : 0 < dw) (hdh : 0 < dh) (hrx : 0 ≤ rx) (hry : 0 ≤ ry)
    (hrw : 0 ≤ rw) (hrh : 0 ≤ rh) (hxw : rx + rw ≤ dw) (hyh : ry + rh ≤ dh)
    (how : 0 ≤ ow) (hoh : 0 ≤ oh) :
    withinOne (srcRect_v11 ow oh dw dh rx ry rw rh)
      (srcRect_v12 ow oh dw dh rx ry rw rh) := by
  obtain ⟨hx0, hx2, hx2w⟩ := scaled_bounds hdw hrx hrw hxw how
  obtain ⟨hy0, hy2, hy2h⟩ := scaled_bounds hdh hry hrh hyh hoh
  unfold withinOne srcRect_v11 srcRect_v12
  dsimp only
  rw [trunc_lo_eq hx0, trunc_lo_eq hy0, trunc_hi_eq hx2 hx2w,
    trunc_hi_eq hy2 hy2h]
  exact ⟨⟨le_pyRound _, pyRound_le _⟩, ⟨le_pyRound _, pyRound_le _⟩,
    ⟨le_pyRound _, pyRound_le _⟩, ⟨le_pyRound _, pyRound_le _⟩⟩

/-- Witness for `c1_amended` at a concrete input. -/
theorem c1_amended_witness :
    withinOne (srcRect_v11 5 5 4 4 1 1 2 2) (srcRect_v12 5 5 4 4 1 1 2 2) :=
  c1_amended 5 5 4 4 1 1 2 2 (by decide) (by decide) (by decide) (by decide)
    (by decide) (by decide) (by decide) (by decide) (by decide) (by decide)

/-! ### C2: the computed rectangle is the scaled selection -/

/-- C2: in both versions every computed crop edge equals the corresponding
selection edge scaled by `orig_w / disp_w` (resp. `orig_h / disp_h`), up
to integer rounding (each edge is strictly less than one source pixel from
the exact value). -/
theorem c2_scaled (ow oh dw dh rx ry rw rh : ℤ)
    (hdw : 0 < dw) (hdh : 0 < dh) (hrx : 0 ≤ rx) (hry : 0 ≤ ry)
    (hrw : 0 ≤ rw) (hrh : 0 ≤ rh) (hxw : rx + rw ≤ dw) (hyh : ry + rh ≤ dh)
    (how : 0 ≤ ow) (hoh : 0 ≤ oh) :
    approxScaled ow oh dw dh rx ry rw rh (srcRect_v11 ow oh dw dh rx ry rw rh) ∧
    approxScaled ow oh dw dh rx ry rw rh (srcRect_v12 ow oh dw dh rx ry rw rh) := by
  obtain ⟨hx0, hx2, hx2w⟩ := scaled_bounds hdw hrx hrw hxw how
  obtain ⟨hy0, hy2, hy2h⟩ := scaled_bounds hdh hry hrh hyh hoh
  have round_lt : ∀ t : ℚ, |(pyRound t : ℚ) - t| < 1 := fun t =>
    lt_of_le_of_lt (abs_pyRound_sub_le t) (by norm_num)
  constructor
  · unfold approxScaled srcRect_v11
    dsimp only
    exact ⟨round_lt _, round_lt _, round_lt _, round_lt _⟩
  · unfold approxScaled srcRect_v12
    dsimp only
    rw [trunc_lo_eq hx0, trunc_lo_eq hy0, trunc_hi_eq hx2 hx2w,
      trunc_hi_eq hy2 hy2h]
    exact ⟨abs_floor_sub_lt _, abs_floor_sub_lt _, abs_floor_sub_lt _,
      abs_floor_sub_lt _⟩

/-- Witness for `c2_scaled` at a concrete input. -/
theorem c2_scaled_witness :
    approxScaled 5 5 4 4 1 1 2 2 (srcRect_v11 5 5 4 4 1 1 2 2) ∧
    approxScaled 5 5 4 4 1 1 2 2 (srcRect_v12 5 5 4 4 1 1 2 2) :=
  c2_scaled 5 5 4 4 1 1 2 2 (by decide) (by decide) (by decide) (by decide)
    (by decide) (by decide) (by decide) (by decide) (by decide) (by decide)

/-! ### C3: the computed crop stays inside the source frame -/

/-- C3: the claim fails for version 1.1.  With a 1000×600-window layout
(label 640×360, pixmap 400×300 centred at offset (120, 30)) on an 800×600
source, a drag from (100, 50) to (299, 249) passes every validity check
yet produces `x0 = -40 < 0`: the crop rectangle sticks out left of the
frame. -/
theorem c3_counterexample :
    crop_and_save_v11 800 600 640 360 (some (400, 300)) (some (100, 50))
        (some (299, 249)) = some (-40, 40, 360, 440) ∧ (-40 : ℤ) < 0 :=
  ⟨by with_unfolding_all decide, by decide⟩

/-- `srcRect_v12` clamps its first components below by 0 and its last
components above by the frame size. -/
theorem srcRect_v12_bounds (ow oh dw dh rx ry rw rh : ℤ) :
    0 ≤ (srcRect_v12 ow oh dw dh rx ry rw rh).1 ∧
    (srcRect_v12 ow oh dw dh rx ry rw rh).2.2.1 ≤ ow ∧
    0 ≤ (srcRect_v12 ow oh dw dh rx ry rw rh).2.1 ∧
    (srcRect_v12 ow oh dw dh rx ry rw rh).2.2.2 ≤ oh := by
  unfold srcRect_v12
  dsimp only
  exact ⟨le_max_left _ _, min_le_left _ _, le_max_left _ _, min_le_left _ _⟩

/-- C3 (amended): in version 1.2, whenever `crop_and_save` proceeds to
writing an output file with crop `(x, y, w, h)`, the source rectangle lies
inside the frame: `0 ≤ x`, `x + w ≤ orig_w`, `0 ≤ y`, `y + h ≤ orig_h`,
with positive extents.  (Version 1.1 violates the claim, see the
counterexample.) -/
theorem c3_amended (ow oh : ℤ) (hasCap : Bool) (sp ep : Option (ℤ × ℤ))
    (vdr : Option QRect) (dp : Option (ℤ × ℤ)) (x y w h : ℤ)
    (hres : crop_and_save_v12 ow oh hasCap sp ep vdr dp = some (x, y, w, h)) :
    0 ≤ x ∧ 0 < w ∧ x + w ≤ ow ∧ 0 ≤ y ∧ 0 < h ∧ y + h ≤ oh := by
  cases hasCap with
  | false => simp [crop_and_save_v12] at hres
  | true =>
    cases hgsi : get_selection_info sp ep vdr dp with
    | none => simp [crop_and_save_v12, hgsi] at hres
    | some info =>
      obtain ⟨b1, b2, b3, b4⟩ := srcRect_v12_bounds ow oh info.disp_w
        info.disp_h info.rel_x info.rel_y info.rel_w info.rel_h
      simp only [crop_and_save_v12, hgsi, reduceCtorEq, reduceIte] at hres
      split_ifs at hres with hguard
      push_neg at hguard
      rw [Option.some.injEq, Prod.mk.injEq, Prod.mk.injEq, Prod.mk.injEq]
        at hres
      obtain ⟨hx, hy, hw, hh⟩ := hres
      omega

/-- A drag rectangle whose corners are already ordered (up to the width-0
degeneracy Qt tolerates) is left unchanged by `normalized`. -/
theorem normalized_of_ordered {r : QRect} (hx : r.x1 ≤ r.x2 + 1)
    (hy : r.y1 ≤ r.y2 + 1) : r.normalized = r := by
  rcases r with ⟨a, b, c, d⟩
  dsimp only at hx hy
  unfold QRect.normalized
  dsimp only
  rw [if_neg (by omega), if_neg (by omega), if_neg (by omega),
    if_neg (by omega)]

/-- Intersecting a proper rectangle with one containing it returns it
unchanged. -/
theorem intersected_of_contained {s r : QRect} (hx1 : r.x1 ≤ s.x1)
    (hx : s.x1 ≤ s.x2) (hx2 : s.x2 ≤ r.x2) (hy1 : r.y1 ≤ s.y1)
    (hy : s.y1 ≤ s.y2) (hy2 : s.y2 ≤ r.y2) : s.intersected r = s := by
  rcases s with ⟨a1, b1, a2, b2⟩
  rcases r with ⟨c1, d1, c2, d2⟩
  dsimp only at hx1 hx hx2 hy1 hy hy2
  unfold QRect.intersected QRect.isNull
  dsimp only
  split_ifs <;> first
  | (exfalso; omega)
  | (simp only [QRect.mk.injEq]; omega)

/-- `srcRect_v11` maps the whole displayed pixmap to the whole source
frame. -/
theorem srcRect_v11_full (ow oh pw ph : ℤ) (hpw : pw ≠ 0) (hph : ph ≠ 0) :
    srcRect_v11 ow oh pw ph 0 0 pw ph = (0, 0, ow, oh) := by
  have hpw' : ((pw : ℤ) : ℚ) ≠ 0 := Int.cast_ne_zero.mpr hpw
  have hph' : ((ph : ℤ) : ℚ) ≠ 0 := Int.cast_ne_zero.mpr hph
  have h0 : pyRound (0 : ℚ) = 0 := by simpa using pyRound_intCast 0
  unfold srcRect_v11
  dsimp only
  rw [Int.cast_zero, zero_mul, zero_mul, zero_add, zero_add,
    mul_comm ((pw : ℤ) : ℚ), div_mul_cancel₀ _ hpw',
    mul_comm ((ph : ℤ) : ℚ), div_mul_cancel₀ _ hph']
  simp [h0, pyRound_intCast]

/-- `srcRect_v12` maps the whole displayed pixmap to the whole source
frame. -/
theorem srcRect_v12_full (ow oh pw ph : ℤ) (hpw : pw ≠ 0) (hph : ph ≠ 0) :
    srcRect_v12 ow oh pw ph 0 0 pw ph = (0, 0, ow, oh) := by
  have hpw' : ((pw : ℤ) : ℚ) ≠ 0 := Int.cast_ne_zero.mpr hpw
  have hph' : ((ph : ℤ) : ℚ) ≠ 0 := Int.cast_ne_zero.mpr hph
  have h0 : pyTrunc (0 : ℚ) = 0 := by simpa using pyTrunc_intCast 0
  unfold srcRect_v12
  dsimp only
  rw [Int.cast_zero, zero_mul, zero_mul, zero_add, zero_add,
    mul_comm ((pw : ℤ) : ℚ), div_mul_cancel₀ _ hpw',
    mul_comm ((ph : ℤ) : ℚ), div_mul_cancel₀ _ hph']
  simp [h0, pyTrunc_intCast]

/-! ### C4: the full displayed frame maps to the full source frame -/

/-- C4: in both versions, a drag from the top-left to the bottom-right
corner of the displayed video rectangle is mapped to the full source
frame `(0, 0, orig_w, orig_h)`.  `(lw, lh)` is v1.1's label size,
`(ww, wh)` v1.2's widget size, `(pw, ph)` the displayed pixmap size. -/
theorem c4_full_frame (ow oh lw lh ww wh pw ph : ℤ)
    (sp1 ep1 sp2 ep2 : ℤ × ℤ)
    (h5w : 5 ≤ pw) (h5h : 5 ≤ ph) (hplw : pw ≤ lw) (hphh : ph ≤ lh)
    (h0w : 0 < ow) (h0h : 0 < oh)
    (hsp1 : sp1 = (max 0 ((lw - pw).fdiv 2), max 0 ((lh - ph).fdiv 2)))
    (hep1 : ep1 = (max 0 ((lw - pw).fdiv 2) + pw - 1,
      max 0 ((lh - ph).fdiv 2) + ph - 1))
    (hsp2 : sp2 = ((update_display_rect ww wh pw ph).x1,
      (update_display_rect ww wh pw ph).y1))
    (hep2 : ep2 = ((update_display_rect ww wh pw ph).x1 + pw - 1,
      (update_display_rect ww wh pw ph).y1 + ph - 1)) :
    crop_and_save_v11 ow oh lw lh (some (pw, ph)) (some sp1) (some ep1) =
      some (0, 0, ow, oh) ∧
    crop_and_save_v12 ow oh true (some sp2) (some ep2)
      (some (update_display_rect ww wh pw ph)) (some (pw, ph)) =
      some (0, 0, ow, oh) := by
  subst hsp1 hep1 hsp2 hep2
  have hoxlw : max 0 ((lw - pw).fdiv 2) + pw ≤ lw := by
    rw [fdiv_two_eq_ediv _ (by omega : (0 : ℤ) ≤ lw - pw),
      max_eq_right (Int.ediv_nonneg (by omega) (by norm_num))]
    omega
  have hoylh : max 0 ((lh - ph).fdiv 2) + ph ≤ lh := by
    rw [fdiv_two_eq_ediv _ (by omega : (0 : ℤ) ≤ lh - ph),
      max_eq_right (Int.ediv_nonneg (by omega) (by norm_num))]
    omega
  have hox0 : 0 ≤ max 0 ((lw - pw).fdiv 2) := le_max_left _ _
  have hoy0 : 0 ≤ max 0 ((lh - ph).fdiv 2) := le_max_left _ _
  constructor
  · -- version 1.1
    have hsel : get_selection_normalized lw lh
        (some (max 0 ((lw - pw).fdiv 2), max 0 ((lh - ph).fdiv 2)))
        (some (max 0 ((lw - pw).fdiv 2) + pw - 1,
          max 0 ((lh - ph).fdiv 2) + ph - 1)) =
        some (max 0 ((lw - pw).fdiv 2), max 0 ((lh - ph).fdiv 2), pw, ph) := by
      unfold get_selection_normalized QRect.fromPoints
      dsimp only
      rw [normalized_of_ordered (by dsimp only; omega) (by dsimp only; omega)]
      rw [intersected_of_contained
        (by unfold QRect.mkXYWH; dsimp only; omega)
        (by dsimp only; omega)
        (by unfold QRect.mkXYWH; dsimp only; omega)
        (by unfold QRect.mkXYWH; dsimp only; omega)
        (by dsimp only; omega)
        (by unfold QRect.mkXYWH; dsimp only; omega)]
      rw [if_neg (by unfold QRect.width QRect.height; dsimp only; omega)]
      simp only [Option.some.injEq, Prod.mk.injEq, QRect.width, QRect.height,
        true_and, and_true]
      omega
    simp only [crop_and_save_v11, hsel, sub_self, sub_zero, min_self]
    rw [if_neg (by omega)]
    rw [srcRect_v11_full ow oh pw ph (by omega) (by omega)]
  · -- version 1.2
    simp only [update_display_rect, QRect.mkXYWH]
    have hox2 : 0 ≤ max 0 ((ww - pw).fdiv 2) := le_max_left _ _
    have hoy2 : 0 ≤ max 0 ((wh - ph).fdiv 2) := le_max_left _ _
    have hgsi : get_selection_info
        (some (max 0 ((ww - pw).fdiv 2), max 0 ((wh - ph).fdiv 2)))
        (some (max 0 ((ww - pw).fdiv 2) + pw - 1,
          max 0 ((wh - ph).fdiv 2) + ph - 1))
        (some ⟨max 0 ((ww - pw).fdiv 2), max 0 ((wh - ph).fdiv 2),
          max 0 ((ww - pw).fdiv 2) + pw - 1,
          max 0 ((wh - ph).fdiv 2) + ph - 1⟩)
        (some (pw, ph)) =
        some ⟨⟨max 0 ((ww - pw).fdiv 2), max 0 ((wh - ph).fdiv 2),
          max 0 ((ww - pw).fdiv 2) + pw - 1,
          max 0 ((wh - ph).fdiv 2) + ph - 1⟩,
          ⟨max 0 ((ww - pw).fdiv 2), max 0 ((wh - ph).fdiv 2),
          max 0 ((ww - pw).fdiv 2) + pw - 1,
          max 0 ((wh - ph).fdiv 2) + ph - 1⟩, 0, 0, pw, ph, pw, ph⟩ := by
      unfold get_selection_info QRect.fromPoints
      dsimp only
      rw [normalized_of_ordered (by dsimp only; omega) (by dsimp only; omega)]
      rw [if_neg (by unfold QRect.width QRect.height; dsimp only; omega)]
      rw [intersected_of_contained
        (by dsimp only; omega) (by dsimp only; omega) (by dsimp only; omega)
        (by dsimp only; omega) (by dsimp only; omega) (by dsimp only; omega)]
      rw [if_neg (by unfold QRect.width QRect.height; dsimp only; omega)]
      simp only [Option.some.injEq, SelInfo.mk.injEq, QRect.width,
        QRect.height, QRect.mk.injEq, true_and, and_true]
      omega
    rw [crop_and_save_v12]
    rw [if_neg (by decide)]
    rw [hgsi]
    dsimp only
    rw [srcRect_v12_full ow oh pw ph (by omega) (by omega)]
    dsimp only
    rw [if_neg (by omega)]
    rw [Option.some.injEq, Prod.mk.injEq, Prod.mk.injEq, Prod.mk.injEq]
    omega

/-- Witness for `c4_full_frame`: 800×600 source, 640×360 label/widget,
400×300 pixmap centred at (120, 30), drag (120, 30) → (519, 329). -/
theorem c4_full_frame_witness :
    crop_and_save_v11 800 600 640 360 (some (400, 300)) (some (120, 30))
        (some (519, 329)) = some (0, 0, 800, 600) ∧
    crop_and_save_v12 800 600 true (some (120, 30)) (some (519, 329))
        (some (update_display_rect 640 360 400 300)) (some (400, 300)) =
      some (0, 0, 800, 600) :=
  c4_full_frame 800 600 640 360 640 360 400 300 (120, 30) (519, 329)
    (120, 30) (519, 329) (by decide) (by decide) (by decide) (by decide)
    (by decide) (by decide) (by decide) (by decide) (by decide) (by decide)

/-! ### C5: the output video is the cropped input video -/

theorem process_crop_length (x y w h : ℕ) (frames : List (Frame α)) :
    (process_crop x y w h frames).length = frames.length := by
  induction frames with
  | nil => rfl
  | cons f rest ih => simp [process_crop, ih]

theorem process_crop_getElem (x y w h : ℕ) (frames : List (Frame α))
    (i : ℕ) :
    (process_crop x y w h frames)[i]? =
      (frames[i]?).map (cropFrame x y w h) := by
  induction frames generalizing i with
  | nil => simp [process_crop]
  | cons f rest ih =>
    cases i with
    | zero => simp [process_crop]
    | succ j => simpa [process_crop] using ih j

theorem cropFrame_pixel (x y w h : ℕ) (f : Frame α) (r c : ℕ)
    (hr : r < h) (hc : c < w) :
    ((cropFrame x y w h f)[r]?).bind (fun row => row[c]?) =
      (f[y + r]?).bind (fun row => row[x + c]?) := by
  unfold cropFrame
  rw [List.getElem?_map, List.getElem?_take_of_lt hr, List.getElem?_drop]
  cases hrow : f[y + r]? with
  | none => rfl
  | some row =>
    simp only [Option.map_some', Option.some_bind]
    rw [List.getElem?_take_of_lt hc, List.getElem?_drop]

/-- C5: for every input video and crop parameters, v1.2's `process_crop`
writes exactly as many frames as it reads, in order, and pixel `(r, c)` of
output frame `i` is pixel `(y + r, x + c)` of input frame `i` for every
`r < height`, `c < width`. -/
theorem c5_output_is_cropped (α : Type) (frames : List (Frame α))
    (x y w h : ℕ) :
    (process_crop x y w h frames).length = frames.length ∧
    ∀ i r c : ℕ, r < h → c < w →
      pixel (process_crop x y w h frames) i r c =
        pixel frames i (y + r) (x + c) := by
  refine ⟨process_crop_length x y w h frames, fun i r c hr hc => ?_⟩
  unfold pixel
  rw [process_crop_getElem]
  cases hfr : frames[i]? with
  | none => rfl
  | some f =>
    simp only [Option.map_some', Option.some_bind]
    exact cropFrame_pixel x y w h f r c hr hc

/-- Witness for `c5_output_is_cropped`: one 2×2 frame cropped to its
bottom-right pixel. -/
theorem c5_output_is_cropped_witness :
    (process_crop 1 1 1 1 ([[[5, 7], [9, 11]]] : List (Frame ℕ))).length = 1 ∧
    pixel (process_crop 1 1 1 1 ([[[5, 7], [9, 11]]] : List (Frame ℕ)))
        0 0 0 =
      pixel ([[[5, 7], [9, 11]]] : List (Frame ℕ)) 0 1 1 :=
  ⟨(c5_output_is_cropped ℕ [[[5, 7], [9, 11]]] 1 1 1 1).1,
    (c5_output_is_cropped ℕ [[[5, 7], [9, 11]]] 1 1 1 1).2 0 0 0
      (by decide) (by decide)⟩

/-! ### C6: the rendered frame is the first frame -/

/-- C6: in both versions, after a successful load of a video that has at
least one frame, the rendered frame is the frame of index 0 (v1.1 shows
`clip.get_frame(0)`; v1.2 shows the first `cap.read()` of the freshly
opened capture). -/
theorem c6_first_frame (α : Type) (clip : Video α) (cap0 : Cap α)
    (path1 path2 : String) (s1 : StateV11 α) (s2 : StateV12 α)
    (hpos : cap0.pos = 0) (hne : cap0.frames ≠ []) :
    (load_video_v11 (some clip) path1 s1).displayed = clip.frames[0]? ∧
    (load_video_v12 (some cap0) path2 s2).displayed = cap0.frames[0]? := by
  constructor
  · rfl
  · unfold load_video_v12 Cap.read
    dsimp only
    rw [hpos]
    cases hf : cap0.frames[0]? with
    | none =>
      exfalso
      have h1 := List.getElem?_eq_none_iff.mp hf
      have h2 := List.length_pos.mpr hne
      omega
    | some f => rfl

/-- Witness for `c6_first_frame` on concrete one-frame videos. -/
theorem c6_first_frame_witness :
    (load_video_v11 (some ⟨[[[1]]], 1, 1, 1, 1⟩) "a"
        (⟨none, none, none, 0, 0, none, false⟩ : StateV11 ℕ)).displayed =
      [[[1]]][0]? ∧
    (load_video_v12 (some ⟨[[[2]]], 0, 1, 1, 1, 1⟩) "b"
        (⟨none, none, 0, 1, 0, 0, none, none, false⟩ :
          StateV12 ℕ)).displayed =
      [[[2]]][0]? :=
  c6_first_frame ℕ ⟨[[[1]]], 1, 1, 1, 1⟩ ⟨[[[2]]], 0, 1, 1, 1, 1⟩ "a" "b"
    ⟨none, none, none, 0, 0, none, false⟩
    ⟨none, none, 0, 1, 0, 0, none, none, false⟩ rfl (by decide)

/-! ### C10: a failed load in v1.1 changes nothing -/

/-- C10: in version 1.1, when opening the video raises, `load_video`
reports the error and leaves every piece of application state unchanged:
path, clip, current frame, original sizes, the displayed frame, and the
enabled state of the crop button. -/
theorem c10_load_failure_atomic (α : Type) (path : String)
    (s : StateV11 α) :
    (load_video_v11 none path s).video_path = s.video_path ∧
    (load_video_v11 none path s).clip = s.clip ∧
    (load_video_v11 none path s).current_frame = s.current_frame ∧
    (load_video_v11 none path s).orig_w = s.orig_w ∧
    (load_video_v11 none path s).orig_h = s.orig_h ∧
    (load_video_v11 none path s).displayed = s.displayed ∧
    (load_video_v11 none path s).crop_btn_enabled = s.crop_btn_enabled :=
  ⟨rfl, rfl, rfl, rfl, rfl, rfl, rfl⟩

/-! ### C8: when `get_selection_info` returns None -/

/-- For proper rectangles, the Qt intersection is empty exactly when the
rectangles share no pixel. -/
theorem empty_intersect_iff {s r : QRect} (hsx : s.x1 ≤ s.x2)
    (hsy : s.y1 ≤ s.y2) (hrx : r.x1 ≤ r.x2) (hry : r.y1 ≤ r.y2) :
    ((s.intersected r).width ≤ 0 ∨ (s.intersected r).height ≤ 0) ↔
      rectDisjoint s r := by
  rcases s with ⟨a1, b1, a2, b2⟩
  rcases r with ⟨c1, d1, c2, d2⟩
  dsimp only at hsx hsy hrx hry
  unfold QRect.intersected QRect.isNull rectDisjoint QRect.width
    QRect.height
  dsimp only
  split_ifs <;> first
  | omega
  | (dsimp only; omega)

/-- C8: v1.2's `get_selection_info` returns `None` exactly when there is
no selection (a missing drag corner), the normalized selection is
narrower or shorter than 5 display pixels, or the selection is disjoint
from the displayed video rectangle; and whenever it returns `None`,
`crop_and_save` stops before writing any output. -/
theorem c8_selection_none (p q : ℤ × ℤ) (vx vy vw vh dw dh ow oh : ℤ)
    (hasCap : Bool) (hvw : 0 < vw) (hvh : 0 < vh) :
    (get_selection_info none (some q) (some (QRect.mkXYWH vx vy vw vh))
        (some (dw, dh)) = none) ∧
    (get_selection_info (some p) none (some (QRect.mkXYWH vx vy vw vh))
        (some (dw, dh)) = none) ∧
    (get_selection_info (some p) (some q) (some (QRect.mkXYWH vx vy vw vh))
        (some (dw, dh)) = none ↔
      ((QRect.fromPoints p q).normalized.width < 5 ∨
        (QRect.fromPoints p q).normalized.height < 5 ∨
        rectDisjoint (QRect.fromPoints p q).normalized
          (QRect.mkXYWH vx vy vw vh))) ∧
    (get_selection_info (some p) (some q) (some (QRect.mkXYWH vx vy vw vh))
        (some (dw, dh)) = none →
      crop_and_save_v12 ow oh hasCap (some p) (some q)
        (some (QRect.mkXYWH vx vy vw vh)) (some (dw, dh)) = none) := by
  have hprop : (QRect.mkXYWH vx vy vw vh).x1 ≤ (QRect.mkXYWH vx vy vw vh).x2 ∧
      (QRect.mkXYWH vx vy vw vh).y1 ≤ (QRect.mkXYWH vx vy vw vh).y2 := by
    unfold QRect.mkXYWH
    dsimp only
    omega
  refine ⟨rfl, rfl, ?_, ?_⟩
  · have hwid : (QRect.fromPoints p q).normalized.width =
        (QRect.fromPoints p q).normalized.x2 -
          (QRect.fromPoints p q).normalized.x1 + 1 := rfl
    have hhei : (QRect.fromPoints p q).normalized.height =
        (QRect.fromPoints p q).normalized.y2 -
          (QRect.fromPoints p q).normalized.y1 + 1 := rfl
    unfold get_selection_info
    dsimp only
    split_ifs with h1 h2
    · exact iff_of_true rfl
        (by rcases h1 with h | h; exacts [Or.inl h, Or.inr (Or.inl h)])
    · push_neg at h1
      refine iff_of_true rfl (Or.inr (Or.inr ?_))
      exact (empty_intersect_iff (by omega) (by omega) hprop.1 hprop.2).mp h2
    · push_neg at h1
      refine iff_of_false (by simp) ?_
      intro hr
      rcases hr with h | h | h
      · omega
      · omega
      · exact h2 ((empty_intersect_iff (by omega) (by omega)
          hprop.1 hprop.2).mpr h)
  · intro hnone
    cases hasCap with
    | false => simp [crop_and_save_v12]
    | true => simp [crop_and_save_v12, hnone]

/-- Witness for `c8_selection_none` at a concrete configuration: a 11×11
selection at the origin and a 50×50 video rectangle at (100, 100). -/
theorem c8_selection_none_witness :
    (get_selection_info none (some (10, 10))
        (some (QRect.mkXYWH 100 100 50 50)) (some (50, 50)) = none) ∧
    (get_selection_info (some (0, 0)) none
        (some (QRect.mkXYWH 100 100 50 50)) (some (50, 50)) = none) ∧
    (get_selection_info (some (0, 0)) (some (10, 10))
        (some (QRect.mkXYWH 100 100 50 50)) (some (50, 50)) = none ↔
      ((QRect.fromPoints (0, 0) (10, 10)).normalized.width < 5 ∨
        (QRect.fromPoints (0, 0) (10, 10)).normalized.height < 5 ∨
        rectDisjoint (QRect.fromPoints (0, 0) (10, 10)).normalized
          (QRect.mkXYWH 100 100 50 50))) ∧
    (get_selection_info (some (0, 0)) (some (10, 10))
        (some (QRect.mkXYWH 100 100 50 50)) (some (50, 50)) = none →
      crop_and_save_v12 640 480 true (some (0, 0)) (some (10, 10))
        (some (QRect.mkXYWH 100 100 50 50)) (some (50, 50)) = none) :=
  c8_selection_none (0, 0) (10, 10) 100 100 50 50 50 50 640 480 true
    (by decide) (by decide)

/-! ### C9: swapping the drag endpoints -/

/-- C9: the claim is false.  Qt 5's `QRect::normalized` swaps a corner
pair only when the extent is negative, so a drag whose coordinates differ
by exactly 1 is direction-sensitive: dragging (10, 10) → (11, 30) gives a
width-2 rectangle and a crop, while (11, 30) → (10, 10) gives a width-0
rectangle and v1.1 rejects the selection. -/
theorem c9_counterexample :
    (QRect.fromPoints (10, 10) (11, 30)).normalized ≠
      (QRect.fromPoints (11, 30) (10, 10)).normalized ∧
    crop_and_save_v11 640 360 640 360 (some (640, 360)) (some (10, 10))
        (some (11, 30)) ≠
      crop_and_save_v11 640 360 640 360 (some (640, 360)) (some (11, 30))
        (some (10, 10)) := by
  constructor <;> with_unfolding_all decide

/-- C9 (amended): swapping the drag start and end points yields the same
normalized rectangle — and hence the same selection and crop result in
both versions — whenever no coordinate of the two points differs by
exactly 1 (the width-0 degeneracy of Qt 5's `QRect::normalized`). -/
theorem c9_amended (p q : ℤ × ℤ)
    (hx1 : p.1 - q.1 ≠ 1) (hx2 : q.1 - p.1 ≠ 1)
    (hy1 : p.2 - q.2 ≠ 1) (hy2 : q.2 - p.2 ≠ 1) :
    (QRect.fromPoints p q).normalized = (QRect.fromPoints q p).normalized ∧
    (∀ ow oh lw lh pix,
      crop_and_save_v11 ow oh lw lh pix (some p) (some q) =
        crop_and_save_v11 ow oh lw lh pix (some q) (some p)) ∧
    (∀ vdr dp, get_selection_info (some p) (some q) vdr dp =
        get_selection_info (some q) (some p) vdr dp) ∧
    (∀ ow oh hasCap vdr dp,
      crop_and_save_v12 ow oh hasCap (some p) (some q) vdr dp =
        crop_and_save_v12 ow oh hasCap (some q) (some p) vdr dp) := by
  obtain ⟨px, py⟩ := p
  obtain ⟨qx, qy⟩ := q
  dsimp only at hx1 hx2 hy1 hy2
  have hnorm : (QRect.fromPoints (px, py) (qx, qy)).normalized =
      (QRect.fromPoints (qx, qy) (px, py)).normalized := by
    unfold QRect.fromPoints QRect.normalized
    dsimp only
    simp only [QRect.mk.injEq]
    refine ⟨?_, ?_, ?_, ?_⟩ <;> split_ifs <;> omega
  have hgsn : ∀ lw lh : ℤ,
      get_selection_normalized lw lh (some (px, py)) (some (qx, qy)) =
        get_selection_normalized lw lh (some (qx, qy)) (some (px, py)) := by
    intro lw lh
    unfold get_selection_normalized
    dsimp only
    rw [hnorm]
  have hgsi : ∀ vdr dp, get_selection_info (some (px, py)) (some (qx, qy))
      vdr dp = get_selection_info (some (qx, qy)) (some (px, py)) vdr dp := by
    intro vdr dp
    rcases vdr with _ | vdr <;> rcases dp with _ | ⟨dw, dh⟩
    · rfl
    · rfl
    · rfl
    · unfold get_selection_info
      dsimp only
      rw [hnorm]
  refine ⟨hnorm, fun ow oh lw lh pix => ?_, hgsi,
    fun ow oh hasCap vdr dp => ?_⟩
  · unfold crop_and_save_v11
    rw [hgsn]
  · unfold crop_and_save_v12
    rw [hgsi]

/-- Witness for `c9_amended`: drag corners (0, 0) and (10, 20). -/
theorem c9_amended_witness :
    (QRect.fromPoints (0, 0) (10, 20)).normalized =
      (QRect.fromPoints (10, 20) (0, 0)).normalized ∧
    crop_and_save_v11 640 360 640 360 (some (640, 360)) (some (0, 0))
        (some (10, 20)) =
      crop_and_save_v11 640 360 640 360 (some (640, 360)) (some (10, 20))
        (some (0, 0)) :=
  ⟨(c9_amended (0, 0) (10, 20) (by decide) (by decide) (by decide)
      (by decide)).1,
    (c9_amended (0, 0) (10, 20) (by decide) (by decide) (by decide)
      (by decide)).2.1 640 360 640 360 (some (640, 360))⟩

/-! ### C7: handle lifecycle -/

theorem cnt_append (e : HEv) (t u : List HEv) :
    cnt e (t ++ u) = cnt e t + cnt e u := by
  induction t with
  | nil => simp [cnt]
  | cons a t ih => simp [cnt, ih]; omega

theorem scanMaxAux_append (f : ℤ → HEv → ℤ) (b m : ℤ) (t u : List HEv) :
    scanMaxAux f b m (t ++ u) =
      scanMaxAux f (t.foldl f b) (scanMaxAux f b m t) u := by
  induction t generalizing b m with
  | nil => simp [scanMaxAux]
  | cons a t ih => simp [scanMaxAux, List.foldl_cons, ih]

theorem le_scanMaxAux (f : ℤ → HEv → ℤ) (b m : ℤ) (t : List HEv) :
    m ≤ scanMaxAux f b m t := by
  induction t generalizing b m with
  | nil => simp [scanMaxAux]
  | cons a t ih =>
    exact le_trans (le_max_left m (f b a)) (ih (f b a) (max m (f b a)))

/-- One user event preserves the handle invariant. -/
theorem hstep_inv (s : HState) (t : List HEv) (e : UEv) (h : HInv s t) :
    HInv (hstep s e).1 (t ++ (hstep s e).2) := by
  obtain ⟨hbal, hwbal, hmax, hwmax, hfresh, honce, hwonce, hwrel, hcap,
    hnext⟩ := h
  cases e with
  | load ok =>
    cases hc : s.cap with
    | none =>
      have hbal0 : t.foldl capStep 0 = 0 := by rw [hbal, hc]
      have hcap0 : ∀ i, cnt (HEv.relCap i) t = cnt (HEv.openCap i) t := by
        intro i
        have hci := hcap i
        rw [hc] at hci
        simpa using hci
      cases ok with
      | true =>
        simp only [hstep, loadEvents, hc, eq_self_iff_true, if_true]
        unfold HInv
        dsimp only
        refine ⟨?_, ?_, ?_, ?_, ?_, ?_, ?_, ?_, ?_, ?_⟩
        · rw [List.foldl_append, hbal0]
          rfl
        · rw [List.foldl_append, hwbal]
          rfl
        · rw [scanMaxAux_append, hbal0]
          simp only [scanMaxAux, capStep]
          exact max_le hmax (by norm_num)
        · rw [scanMaxAux_append, hwbal]
          simp only [scanMaxAux, writerStep]
          exact max_le hwmax (by norm_num)
        · intro i hi
          obtain ⟨f1, f2, f3, f4⟩ := hfresh i (by omega)
          simp [cnt_append, cnt, f1, f2, f3, f4,
            (show ¬(s.next = i) by omega)]
        · intro i
          by_cases hi : s.next = i
          · subst hi
            have := (hfresh s.next le_rfl).1
            simp [cnt_append, cnt, this]
          · have := honce i
            simp only [cnt_append, cnt]
            simp [hi]
            omega
        · intro i
          simpa [cnt_append, cnt] using hwonce i
        · intro i
          simpa [cnt_append, cnt] using hwrel i
        · intro i
          by_cases hi : s.next = i
          · subst hi
            have h1 := (hfresh s.next le_rfl).1
            have h2 := (hfresh s.next le_rfl).2.1
            simp [cnt_append, cnt, h1, h2]
          · have := hcap0 i
            simp [cnt_append, cnt, hi]
            omega
        · intro i hi
          rw [Option.some.injEq] at hi
          subst hi
          refine ⟨by omega, ?_⟩
          have := (hfresh s.next le_rfl).1
          simp [cnt_append, cnt, this]
      | false =>
        simp only [hstep, loadEvents, hc, Bool.false_eq_true, if_false]
        unfold HInv
        dsimp only
        refine ⟨?_, ?_, ?_, ?_, ?_, ?_, ?_, ?_, ?_, ?_⟩
        · rw [List.foldl_append, hbal0]
          rfl
        · rw [List.foldl_append, hwbal]
          rfl
        · rw [scanMaxAux_append, hbal0]
          simp only [scanMaxAux, capStep]
          refine max_le (max_le hmax (by norm_num)) (by norm_num)
        · rw [scanMaxAux_append, hwbal]
          simp only [scanMaxAux, writerStep]
          refine max_le (max_le hwmax (by norm_num)) (by norm_num)
        · intro i hi
          obtain ⟨f1, f2, f3, f4⟩ := hfresh i (by omega)
          simp [cnt_append, cnt, f1, f2, f3, f4,
            (show ¬(s.next = i) by omega)]
        · intro i
          by_cases hi : s.next = i
          · subst hi
            have := (hfresh s.next le_rfl).1
            simp [cnt_append, cnt, this]
          · have := honce i
            simp only [cnt_append, cnt]
            simp [hi]
            omega
        · intro i
          simpa [cnt_append, cnt] using hwonce i
        · intro i
          simpa [cnt_append, cnt] using hwrel i
        · intro i
          by_cases hi : s.next = i
          · subst hi
            have h1 := (hfresh s.next le_rfl).1
            have h2 := (hfresh s.next le_rfl).2.1
            simp [cnt_append, cnt, h1, h2]
          · have := hcap0 i
            simp [cnt_append, cnt, hi]
            omega
        · intro i hi
          exact absurd hi (by simp)
    | some hh =>
      have hbal1 : t.foldl capStep 0 = 1 := by rw [hbal, hc]
      obtain ⟨hhlt, hhone⟩ := hnext hh hc
      have hhrel : cnt (HEv.relCap hh) t = 0 := by
        have := hcap hh
        rw [hc] at this
        simpa [hhone] using this
      have hcapo : ∀ i, i ≠ hh →
          cnt (HEv.relCap i) t = cnt (HEv.openCap i) t := by
        intro i hne
        have hci := hcap i
        rw [hc] at hci
        simpa [show ¬(hh = i) from fun hq => hne hq.symm] using hci
      cases ok with
      | true =>
        simp only [hstep, loadEvents, hc, eq_self_iff_true, if_true]
        unfold HInv
        dsimp only
        refine ⟨?_, ?_, ?_, ?_, ?_, ?_, ?_, ?_, ?_, ?_⟩
        · rw [List.foldl_append, hbal1]
          rfl
        · rw [List.foldl_append, hwbal]
          rfl
        · rw [scanMaxAux_append, hbal1]
          simp only [scanMaxAux, capStep]
          refine max_le (max_le hmax (by norm_num)) (by norm_num)
        · rw [scanMaxAux_append, hwbal]
          simp only [scanMaxAux, writerStep]
          refine max_le (max_le hwmax (by norm_num)) (by norm_num)
        · intro i hi
          obtain ⟨f1, f2, f3, f4⟩ := hfresh i (by omega)
          simp [cnt_append, cnt, f1, f2, f3, f4,
            (show ¬(s.next = i) by omega), (show ¬(hh = i) by omega)]
        · intro i
          by_cases hi : s.next = i
          · subst hi
            have := (hfresh s.next le_rfl).1
            simp [cnt_append, cnt, this]
          · have := honce i
            simp only [cnt_append, cnt]
            simp [hi]
            omega
        · intro i
          simpa [cnt_append, cnt] using hwonce i
        · intro i
          simpa [cnt_append, cnt] using hwrel i
        · intro i
          by_cases hi : s.next = i
          · subst hi
            have h1 := (hfresh s.next le_rfl).1
            have h2 := (hfresh s.next le_rfl).2.1
            simp [cnt_append, cnt, h1, h2,
              (show ¬(hh = s.next) by omega)]
          · by_cases hih : i = hh
            · subst hih
              simp [cnt_append, cnt, hhrel, hhone,
                (show ¬(s.next = i) from hi), hi]
            · have := hcapo i hih
              simp [cnt_append, cnt, hi,
                (show ¬(hh = i) from fun hq => hih hq.symm)]
              omega
        · intro i hi
          rw [Option.some.injEq] at hi
          subst hi
          refine ⟨by omega, ?_⟩
          have := (hfresh s.next le_rfl).1
          simp [cnt_append, cnt, this, (show ¬(hh = s.next) by omega)]
      | false =>
        simp only [hstep, loadEvents, hc, Bool.false_eq_true, if_false]
        unfold HInv
        dsimp only
        refine ⟨?_, ?_, ?_, ?_, ?_, ?_, ?_, ?_, ?_, ?_⟩
        · rw [List.foldl_append, hbal1]
          rfl
        · rw [List.foldl_append, hwbal]
          rfl
        · rw [scanMaxAux_append, hbal1]
          simp only [scanMaxAux, capStep]
          refine max_le (max_le (max_le hmax (by norm_num)) (by norm_num))
            (by norm_num)
        · rw [scanMaxAux_append, hwbal]
          simp only [scanMaxAux, writerStep]
          refine max_le (max_le (max_le hwmax (by norm_num)) (by norm_num))
            (by norm_num)
        · intro i hi
          obtain ⟨f1, f2, f3, f4⟩ := hfresh i (by omega)
          simp [cnt_append, cnt, f1, f2, f3, f4,
            (show ¬(s.next = i) by omega), (show ¬(hh = i) by omega)]
        · intro i
          by_cases hi : s.next = i
          · subst hi
            have := (hfresh s.next le_rfl).1
            simp [cnt_append, cnt, this]
          · have := honce i
            simp only [cnt_append, cnt]
            simp [hi]
            omega
        · intro i
          simpa [cnt_append, cnt] using hwonce i
        · intro i
          simpa [cnt_append, cnt] using hwrel i
        · intro i
          by_cases hi : s.next = i
          · subst hi
            have h1 := (hfresh s.next le_rfl).1
            have h2 := (hfresh s.next le_rfl).2.1
            simp [cnt_append, cnt, h1, h2,
              (show ¬(hh = s.next) by omega)]
          · by_cases hih : i = hh
            · subst hih
              simp [cnt_append, cnt, hhrel, hhone,
                (show ¬(s.next = i) from hi), hi]
            · have := hcapo i hih
              simp [cnt_append, cnt, hi,
                (show ¬(hh = i) from fun hq => hih hq.symm)]
              omega
        · intro i hi
          exact absurd hi (by simp)
  | crop proceed =>
    cases hc : s.cap with
    | none =>
      simp only [hstep, cropEvents, hc, List.append_nil]
      exact ⟨hbal, hwbal, hmax, hwmax, hfresh, honce, hwonce, hwrel, hcap,
        hnext⟩
    | some hh =>
      have hbal1 : t.foldl capStep 0 = 1 := by rw [hbal, hc]
      obtain ⟨hhlt, hhone⟩ := hnext hh hc
      cases proceed with
      | false =>
        simp only [hstep, cropEvents, hc, Bool.false_eq_true, if_false,
          List.append_nil]
        refine ⟨?_, hwbal, hmax, hwmax, hfresh, honce, hwonce, hwrel, ?_,
          ?_⟩
        · exact hbal
        · exact hcap
        · exact hnext
      | true =>
        simp only [hstep, cropEvents, hc, eq_self_iff_true, if_true]
        unfold HInv
        dsimp only
        have hhrel : cnt (HEv.relCap hh) t = 0 := by
          have := hcap hh
          rw [hc] at this
          simpa [hhone] using this
        have hcapo : ∀ i, i ≠ hh →
            cnt (HEv.relCap i) t = cnt (HEv.openCap i) t := by
          intro i hne
          have hci := hcap i
          rw [hc] at hci
          simpa [show ¬(hh = i) from fun hq => hne hq.symm] using hci
        refine ⟨?_, ?_, ?_, ?_, ?_, ?_, ?_, ?_, ?_, ?_⟩
        · rw [List.foldl_append, hbal1]
          rfl
        · rw [List.foldl_append, hwbal]
          rfl
        · rw [scanMaxAux_append, hbal1]
          simp only [scanMaxAux, capStep, writerStep]
          refine max_le (max_le (max_le (max_le hmax (by norm_num))
            (by norm_num)) (by norm_num)) (by norm_num)
        · rw [scanMaxAux_append, hwbal]
          simp only [scanMaxAux, capStep, writerStep]
          refine max_le (max_le (max_le (max_le hwmax (by norm_num))
            (by norm_num)) (by norm_num)) (by norm_num)
        · intro i hi
          obtain ⟨f1, f2, f3, f4⟩ := hfresh i (by omega)
          simp [cnt_append, cnt, f1, f2, f3, f4,
            (show ¬(s.next = i) by omega),
            (show ¬(s.next + 1 = i) by omega)]
        · intro i
          by_cases hi : s.next = i
          · subst hi
            have := (hfresh s.next le_rfl).1
            simp [cnt_append, cnt, this]
          · have := honce i
            simp only [cnt_append, cnt]
            simp [hi]
            omega
        · intro i
          by_cases hi : s.next + 1 = i
          · subst hi
            have := (hfresh (s.next + 1) (by omega)).2.2.1
            simp [cnt_append, cnt, this]
          · have := hwonce i
            simp only [cnt_append, cnt]
            simp [hi]
            omega
        · intro i
          by_cases hi : s.next + 1 = i
          · subst hi
            have h3 := (hfresh (s.next + 1) (by omega)).2.2.1
            have h4 := (hfresh (s.next + 1) (by omega)).2.2.2
            simp [cnt_append, cnt, h3, h4]
          · have := hwrel i
            simp [cnt_append, cnt, hi]
            omega
        · intro i
          by_cases hi : s.next = i
          · subst hi
            have h1 := (hfresh s.next le_rfl).1
            have h2 := (hfresh s.next le_rfl).2.1
            simp [cnt_append, cnt, h1, h2,
              (show ¬(hh = s.next) by omega)]
          · by_cases hih : i = hh
            · subst hih
              simp [cnt_append, cnt, hhrel, hhone,
                (show ¬(s.next = i) from hi), hi]
            · have := hcapo i hih
              simp [cnt_append, cnt, hi,
                (show ¬(hh = i) from fun hq => hih hq.symm)]
              omega
        · intro i hi
          rw [Option.some.injEq] at hi
          subst hi
          refine ⟨by omega, ?_⟩
          have h1 := (hfresh s.next (by omega)).1
          simp [cnt_append, cnt, hhone, h1,
            (show ¬(s.next = hh) by omega)]

/-- Running any sequence of user events preserves the handle invariant. -/
theorem runEvents_inv (evs : List UEv) (s : HState) (t : List HEv)
    (h : HInv s t) :
    HInv (runEvents s evs).1 (t ++ (runEvents s evs).2) := by
  induction evs generalizing s t with
  | nil => simpa [runEvents] using h
  | cons e rest ih =>
    have h1 := hstep_inv s t e h
    have h2 := ih (hstep s e).1 (t ++ (hstep s e).2) h1
    simpa [runEvents, List.append_assoc] using h2

/-- C7: the claim that at most a single capture handle is open at any
time is false: `process_crop` opens a temporary input capture while
`self.cap` is still open, so after a successful load a crop run reaches
two simultaneously open captures. -/
theorem c7_counterexample :
    1 < maxCapOpen (appTrace [UEv.load true, UEv.crop true]) := by decide

/-- C7 (amended): over any run (loads that succeed or fail, crops that
proceed or are rejected, then the window close), every capture and writer
handle is opened at most once and released exactly as often as it was
opened — so each opened handle is released exactly once — the held
capture is released before its replacement is opened on reload, at most
two captures are ever open simultaneously (the held one plus the
temporary one during cropping), and at most one writer. -/
theorem c7_amended (evs : List UEv) :
    (∀ i : ℕ, cnt (HEv.openCap i) (appTrace evs) ≤ 1 ∧
      cnt (HEv.relCap i) (appTrace evs) =
        cnt (HEv.openCap i) (appTrace evs)) ∧
    (∀ i : ℕ, cnt (HEv.openWriter i) (appTrace evs) ≤ 1 ∧
      cnt (HEv.relWriter i) (appTrace evs) =
        cnt (HEv.openWriter i) (appTrace evs)) ∧
    maxCapOpen (appTrace evs) ≤ 2 ∧ maxWriterOpen (appTrace evs) ≤ 1 ∧
    (∀ (ok : Bool) (h : ℕ), (runEvents ⟨none, 0⟩ evs).1.cap = some h →
      (hstep (runEvents ⟨none, 0⟩ evs).1 (UEv.load ok)).2[0]? =
        some (HEv.relCap h) ∧
      (hstep (runEvents ⟨none, 0⟩ evs).1 (UEv.load ok)).2[1]? =
        some (HEv.openCap (runEvents ⟨none, 0⟩ evs).1.next)) := by
  have hreload : ∀ (ok : Bool) (h : ℕ),
      (runEvents ⟨none, 0⟩ evs).1.cap = some h →
      (hstep (runEvents ⟨none, 0⟩ evs).1 (UEv.load ok)).2[0]? =
        some (HEv.relCap h) ∧
      (hstep (runEvents ⟨none, 0⟩ evs).1 (UEv.load ok)).2[1]? =
        some (HEv.openCap (runEvents ⟨none, 0⟩ evs).1.next) := by
    intro ok h hcap'
    cases ok with
    | true =>
      simp only [hstep, loadEvents, hcap', eq_self_iff_true, if_true]
      exact ⟨rfl, rfl⟩
    | false =>
      simp only [hstep, loadEvents, hcap', Bool.false_eq_true, if_false]
      exact ⟨rfl, rfl⟩
  have main :
      (∀ i : ℕ, cnt (HEv.openCap i) (appTrace evs) ≤ 1 ∧
        cnt (HEv.relCap i) (appTrace evs) =
          cnt (HEv.openCap i) (appTrace evs)) ∧
      (∀ i : ℕ, cnt (HEv.openWriter i) (appTrace evs) ≤ 1 ∧
        cnt (HEv.relWriter i) (appTrace evs) =
          cnt (HEv.openWriter i) (appTrace evs)) ∧
      maxCapOpen (appTrace evs) ≤ 2 ∧ maxWriterOpen (appTrace evs) ≤ 1 := by
    have h0 : HInv ⟨none, 0⟩ [] := by
      unfold HInv
      refine ⟨rfl, rfl, by norm_num [scanMaxAux], by norm_num [scanMaxAux],
        ?_, ?_, ?_, ?_, ?_, ?_⟩ <;> simp [cnt]
    have hrun := runEvents_inv evs ⟨none, 0⟩ [] h0
    rw [List.nil_append] at hrun
    obtain ⟨hbal, hwbal, hmax, hwmax, hfresh, honce, hwonce, hwrel, hcap,
      hnext⟩ := hrun
    unfold appTrace maxCapOpen maxWriterOpen
    dsimp only
    cases hc : (runEvents ⟨none, 0⟩ evs).1.cap with
    | none =>
      simp only [closeEvents, hc, List.append_nil]
      refine ⟨?_, ?_, hmax, hwmax⟩
      · intro i
        refine ⟨honce i, ?_⟩
        have := hcap i
        rw [hc] at this
        simpa using this
      · intro i
        exact ⟨hwonce i, hwrel i⟩
    | some hh =>
      simp only [closeEvents, hc]
      obtain ⟨hhlt, hhone⟩ := hnext hh hc
      have hb1 : (runEvents ⟨none, 0⟩ evs).2.foldl capStep 0 = 1 := by
        rw [hbal, hc]
      have hhrel : cnt (HEv.relCap hh) (runEvents ⟨none, 0⟩ evs).2 = 0 := by
        have := hcap hh
        rw [hc] at this
        simpa [hhone] using this
      refine ⟨?_, ?_, ?_, ?_⟩
      · intro i
        by_cases hi : i = hh
        · subst hi
          constructor
          · simpa [cnt_append, cnt] using honce i
          · simp [cnt_append, cnt, hhrel, hhone]
        · constructor
          · simpa [cnt_append, cnt] using honce i
          · have := hcap i
            rw [hc] at this
            simp only [Option.some.injEq] at this
            simp only [cnt_append, cnt,
              (show ¬(hh = i) from fun hq => hi hq.symm), if_neg, if_false]
            simp [(show ¬(hh = i) from fun hq => hi hq.symm)] at this ⊢
            omega
      · intro i
        constructor
        · simpa [cnt_append, cnt] using hwonce i
        · simp only [cnt_append, cnt]
          simp
          exact hwrel i
      · rw [scanMaxAux_append, hb1]
        simp only [scanMaxAux, capStep]
        exact max_le hmax (by norm_num)
      · rw [scanMaxAux_append, hwbal]
        simp only [scanMaxAux, writerStep]
        exact max_le hwmax (by norm_num)
  exact ⟨main.1, main.2.1, main.2.2.1, main.2.2.2, hreload⟩

/-- Witness for `c7_amended`: after one successful load the held capture
is serial 0, and a reload emits its release first and the open of the
replacement (serial 1) second. -/
theorem c7_amended_witness :
    maxCapOpen (appTrace [UEv.load true]) ≤ 2 ∧
    (hstep (runEvents ⟨none, 0⟩ [UEv.load true]).1 (UEv.load true)).2[0]? =
      some (HEv.relCap 0) ∧
    (hstep (runEvents ⟨none, 0⟩ [UEv.load true]).1 (UEv.load true)).2[1]? =
      some (HEv.openCap (runEvents ⟨none, 0⟩ [UEv.load true]).1.next) :=
  ⟨(c7_amended [UEv.load true]).2.2.1,
    (c7_amended [UEv.load true]).2.2.2.2 true 0 (by decide)⟩

set_option maxRecDepth 8000 in
/-- Witness for `c3_amended`: a full-frame selection over a 400×300 pixmap
of an 800×600 source passes the checks and the resulting crop is inside
the frame. -/
theorem c3_amended_witness :
    crop_and_save_v12 800 600 true (some (120, 30)) (some (519, 329))
        (some (update_display_rect 640 360 400 300)) (some (400, 300)) =
      some (0, 0, 800, 600) ∧
    (0 ≤ (0 : ℤ) ∧ 0 < (800 : ℤ) ∧ (0 : ℤ) + 800 ≤ 800 ∧ 0 ≤ (0 : ℤ) ∧
      0 < (600 : ℤ) ∧ (0 : ℤ) + 600 ≤ 600) :=
  ⟨by with_unfolding_all decide,
    c3_amended 800 600 true (some (120, 30)) (some (519, 329))
      (some (update_display_rect 640 360 400 300)) (some (400, 300))
      0 0 800 600 (by with_unfolding_all decide)⟩

end MP4Clip
